import Mathlib

/-
Verification development for the llama-terminal-completion utility.

The string-processing core of the repository is embedded shallowly over
lists of characters:
  * old-project/functions/helpers.py : find_between
  * functions/bot.py                 : run_llama_builder's scan loop, run_command
  * functions.py                     : process_llama_output, process_llama_question,
                                       prompt_user, print_history, clear_history
Python strings become `List Char`; file contents are split into lines the
way Python file iteration does (keeping the newline terminators); fallible
code returns `Except`; the scan loop over the child process's stdout is a
recursive function over the list of lines it would read.
-/

/-- Characters of a Python string. -/
abbrev Str : Type := List Char

/-- True when `p` is an initial run of `s` (character-wise). -/
def leadsWith : Str → Str → Bool
  | [], _ => true
  | _ :: _, [] => false
  | c :: cs, d :: ds => c == d && leadsWith cs ds

/-- The pattern `p` occurs in `s` at index `j`: `j` is in range and the
characters of `s` from `j` on start with `p`.  This is the notion of
"occurrence" used by Python's `str.index`/`in`. -/
def occursAt (p s : Str) (j : Nat) : Prop :=
  j ≤ s.length ∧ leadsWith p (s.drop j) = true

instance (p s : Str) (j : Nat) : Decidable (occursAt p s j) :=
  inferInstanceAs (Decidable (_ ∧ _))

theorem leadsWith_length {p s : Str} (h : leadsWith p s = true) :
    p.length ≤ s.length := by
  induction p generalizing s with
  | nil => simp
  | cons c cs ih =>
    cases s with
    | nil => simp [leadsWith] at h
    | cons d ds =>
      simp only [leadsWith, Bool.and_eq_true] at h
      simpa [List.length_cons] using Nat.succ_le_succ (ih h.2)

/-- Fueled search for the first occurrence of `p` in `s` at an index `≥ k`
(Python `str.find(p, k)` / the success case of `str.index(p, k)`). -/
def findOccAux (p s : Str) : Nat → Nat → Option Nat
  | 0, _ => none
  | fuel + 1, k =>
    if s.length < k then none
    else if leadsWith p (s.drop k) then some k
    else findOccAux p s fuel (k + 1)

/-- First occurrence of `p` in `s` at an index `≥ k`, if any. -/
def findOccFrom (p s : Str) (k : Nat) : Option Nat :=
  findOccAux p s (s.length + 1 - k) k

/-- Python's substring test `p in s`. -/
def isSubstring (p s : Str) : Bool :=
  (findOccFrom p s 0).isSome

theorem findOccAux_some_spec (p s : Str) :
    ∀ fuel k j, findOccAux p s fuel k = some j →
      k ≤ j ∧ occursAt p s j ∧ ∀ m, k ≤ m → m < j → ¬ occursAt p s m := by
  intro fuel
  induction fuel with
  | zero => intro k j h; simp [findOccAux] at h
  | succ n ih =>
    intro k j h
    by_cases hk : s.length < k
    · simp [findOccAux, hk] at h
    · by_cases hp : leadsWith p (s.drop k) = true
      · simp only [findOccAux, if_neg hk, if_pos hp, Option.some.injEq] at h
        subst h
        exact ⟨Nat.le_refl _, ⟨Nat.le_of_not_lt hk, hp⟩,
          fun m hm1 hm2 => absurd (Nat.lt_of_lt_of_le hm2 hm1) (Nat.lt_irrefl m)⟩
      · simp only [findOccAux, if_neg hk, if_neg hp] at h
        obtain ⟨h1, h2, h3⟩ := ih (k + 1) j h
        refine ⟨Nat.le_trans (Nat.le_succ k) h1, h2, fun m hm1 hm2 => ?_⟩
        rcases Nat.eq_or_lt_of_le hm1 with heq | hlt
        · intro hocc; exact hp (heq ▸ hocc.2)
        · exact h3 m hlt hm2

theorem findOccAux_none_spec (p s : Str) :
    ∀ fuel k, s.length + 1 - k ≤ fuel → findOccAux p s fuel k = none →
      ∀ j, k ≤ j → ¬ occursAt p s j := by
  intro fuel
  induction fuel with
  | zero =>
    intro k hfuel _ j hj hocc
    have : s.length < k := by omega
    exact absurd hocc.1 (by omega)
  | succ n ih =>
    intro k hfuel h j hj hocc
    by_cases hk : s.length < k
    · exact absurd hocc.1 (by omega)
    · by_cases hp : leadsWith p (s.drop k) = true
      · simp [findOccAux, hk, hp] at h
      · simp only [findOccAux, if_neg hk, if_neg hp] at h
        rcases Nat.eq_or_lt_of_le hj with heq | hlt
        · exact hp (heq ▸ hocc.2)
        · exact ih (k + 1) (by omega) h j hlt hocc

theorem findOccFrom_some_spec {p s : Str} {k j : Nat}
    (h : findOccFrom p s k = some j) :
    k ≤ j ∧ occursAt p s j ∧ ∀ m, k ≤ m → m < j → ¬ occursAt p s m :=
  findOccAux_some_spec p s _ k j h

theorem findOccFrom_none_spec {p s : Str} {k : Nat}
    (h : findOccFrom p s k = none) :
    ∀ j, k ≤ j → ¬ occursAt p s j :=
  findOccAux_none_spec p s _ k (Nat.le_refl _) h

theorem findOccFrom_eq_some_of {p s : Str} {k j : Nat}
    (h1 : k ≤ j) (h2 : occursAt p s j)
    (h3 : ∀ m, k ≤ m → m < j → ¬ occursAt p s m) :
    findOccFrom p s k = some j := by
  cases h : findOccFrom p s k with
  | none => exact absurd h2 (findOccFrom_none_spec h j h1)
  | some j' =>
    obtain ⟨hk', hocc', hmin'⟩ := findOccFrom_some_spec h
    rcases Nat.lt_trichotomy j' j with hlt | heq | hgt
    · exact absurd hocc' (h3 j' hk' hlt)
    · rw [heq]
    · exact absurd h2 (hmin' j h1 hgt)

theorem findOccFrom_eq_none_of {p s : Str} {k : Nat}
    (h : ∀ j, k ≤ j → ¬ occursAt p s j) :
    findOccFrom p s k = none := by
  cases hf : findOccFrom p s k with
  | none => rfl
  | some j =>
    obtain ⟨hk, hocc, _⟩ := findOccFrom_some_spec hf
    exact absurd hocc (h j hk)

theorem occursAt_drop_iff {p s : Str} {k n : Nat} (hk : k ≤ s.length) :
    occursAt p (s.drop k) n ↔ occursAt p s (k + n) := by
  unfold occursAt
  rw [List.drop_drop, List.length_drop]
  constructor <;> rintro ⟨h1, h2⟩ <;> exact ⟨by omega, h2⟩

/-- Embedding of `find_between(s, first, last)` from
old-project/functions/helpers.py: the text strictly between the first
occurrence of `first` and the first occurrence of `last` after it;
a `ValueError` from `str.index` is caught and yields the empty string. -/
def find_between (s first last : Str) : Str :=
  match findOccFrom first s 0 with
  | none => []
  | some i =>
    match findOccFrom last s (i + first.length) with
    | none => []
    | some j => (s.drop (i + first.length)).take (j - (i + first.length))

theorem find_between_of_first_none {s f l : Str}
    (h : findOccFrom f s 0 = none) : find_between s f l = [] := by
  simp [find_between, h]

theorem find_between_of_second_none {s f l : Str} {i : Nat}
    (h1 : findOccFrom f s 0 = some i)
    (h2 : findOccFrom l s (i + f.length) = none) : find_between s f l = [] := by
  simp [find_between, h1, h2]

theorem find_between_of_both {s f l : Str} {i j : Nat}
    (h1 : findOccFrom f s 0 = some i)
    (h2 : findOccFrom l s (i + f.length) = some j) :
    find_between s f l = (s.drop (i + f.length)).take (j - (i + f.length)) := by
  simp [find_between, h1, h2]

/-- Fueled version of Python's `str.split(sep)` for a non-empty separator:
cut at the first occurrence of `sep` and recurse on the remainder. -/
def pySplitAux (sep : Str) : Nat → Str → List Str
  | 0, s => [s]
  | fuel + 1, s =>
    match findOccFrom sep s 0 with
    | none => [s]
    | some j => s.take j :: pySplitAux sep fuel (s.drop (j + sep.length))

/-- Embedding of Python's `s.split(sep)` for a non-empty `sep`. -/
def pySplit (sep s : Str) : List Str :=
  if sep.isEmpty then [s] else pySplitAux sep (s.length + 1) s

theorem occursAt_pos_length {p s : Str} {j : Nat} (hp : p ≠ [])
    (h : occursAt p s j) : j + p.length ≤ s.length ∧ 1 ≤ p.length := by
  obtain ⟨h1, h2⟩ := h
  have hlen := leadsWith_length h2
  rw [List.length_drop] at hlen
  have : 1 ≤ p.length := by
    cases p with
    | nil => exact absurd rfl hp
    | cons c cs => simp
  exact ⟨by omega, this⟩

theorem pySplitAux_fuel (sep : Str) (hsep : sep ≠ []) :
    ∀ f1 f2 s, s.length < f1 → s.length < f2 →
      pySplitAux sep f1 s = pySplitAux sep f2 s := by
  intro f1
  induction f1 with
  | zero => intro f2 s h1 _; omega
  | succ n ih =>
    intro f2 s h1 h2
    cases f2 with
    | zero => omega
    | succ m =>
      simp only [pySplitAux]
      cases hocc : findOccFrom sep s 0 with
      | none => rfl
      | some j =>
        obtain ⟨_, hat, _⟩ := findOccFrom_some_spec hocc
        obtain ⟨hjlen, hplen⟩ := occursAt_pos_length hsep hat
        have hd : (s.drop (j + sep.length)).length < n := by
          rw [List.length_drop]; omega
        have hd2 : (s.drop (j + sep.length)).length < m := by
          rw [List.length_drop]; omega
        show s.take j :: pySplitAux sep n (s.drop (j + sep.length)) =
          s.take j :: pySplitAux sep m (s.drop (j + sep.length))
        rw [ih m (s.drop (j + sep.length)) hd hd2]

theorem pySplit_eq_single {sep s : Str} (hsep : sep ≠ [])
    (h : findOccFrom sep s 0 = none) : pySplit sep s = [s] := by
  have : sep.isEmpty = false := by
    cases sep with
    | nil => exact absurd rfl hsep
    | cons c cs => rfl
  simp [pySplit, this, pySplitAux, h]

theorem pySplit_eq_cons {sep s : Str} {j : Nat} (hsep : sep ≠ [])
    (h : findOccFrom sep s 0 = some j) :
    pySplit sep s = s.take j :: pySplit sep (s.drop (j + sep.length)) := by
  have hempty : sep.isEmpty = false := by
    cases sep with
    | nil => exact absurd rfl hsep
    | cons c cs => rfl
  obtain ⟨_, hat, _⟩ := findOccFrom_some_spec h
  obtain ⟨hjlen, hplen⟩ := occursAt_pos_length hsep hat
  simp only [pySplit, hempty, Bool.false_eq_true, if_false, pySplitAux, h]
  refine congrArg (s.take j :: ·) ?_
  exact pySplitAux_fuel sep hsep s.length ((s.drop (j + sep.length)).length + 1)
    (s.drop (j + sep.length)) (by rw [List.length_drop]; omega) (by omega)

theorem pySplit_headD_none {sep s : Str} (hsep : sep ≠ [])
    (h : findOccFrom sep s 0 = none) : (pySplit sep s).headD [] = s := by
  rw [pySplit_eq_single hsep h]; rfl

theorem pySplit_headD_some {sep s : Str} {j : Nat} (hsep : sep ≠ [])
    (h : findOccFrom sep s 0 = some j) : (pySplit sep s).headD [] = s.take j := by
  rw [pySplit_eq_cons hsep h]; rfl

/-- Fueled removal of every (non-overlapping, leftmost-first) occurrence of
`delim`: Python's `s.replace(delim, '')`. -/
def replaceAllAux (delim : Str) : Nat → Str → Str
  | 0, s => s
  | fuel + 1, s =>
    match s with
    | [] => []
    | c :: rest =>
      if delim ≠ [] ∧ leadsWith delim (c :: rest) = true then
        replaceAllAux delim fuel ((c :: rest).drop delim.length)
      else c :: replaceAllAux delim fuel rest

/-- Embedding of Python's `s.replace(delim, '')`. -/
def replaceAll (delim s : Str) : Str :=
  replaceAllAux delim s.length s

/-- Python's default `str.strip()` whitespace test, `str.isspace()`: the
characters CPython treats as whitespace (bidirectional classes WS, B and S
and category Zs) — 0x09–0x0D, 0x1C–0x1F, space, NEL 0x85, NBSP 0xA0, Ogham
space 0x1680, the 0x2000–0x200A spaces, line/paragraph separators
0x2028–0x2029, 0x202F, 0x205F and the ideographic space 0x3000. -/
def isPySpace (c : Char) : Bool :=
  let n := c.toNat
  (0x09 ≤ n && n ≤ 0x0D) || (0x1C ≤ n && n ≤ 0x20) ||
  n == 0x85 || n == 0xA0 || n == 0x1680 ||
  (0x2000 ≤ n && n ≤ 0x200A) || (0x2028 ≤ n && n ≤ 0x2029) ||
  n == 0x202F || n == 0x205F || n == 0x3000

/-- Embedding of Python's `s.strip()`. -/
def pyStrip (s : Str) : Str :=
  ((s.dropWhile isPySpace).reverse.dropWhile isPySpace).reverse

/-- Helper splitting a character stream into lines the way Python file
iteration does, each line keeping its trailing newline. -/
def linesKEAux : Str → Str → List Str
  | acc, [] => if acc.isEmpty then [] else [acc.reverse]
  | acc, c :: rest =>
    if c == '\n' then (acc.reverse ++ ['\n']) :: linesKEAux [] rest
    else linesKEAux (c :: acc) rest

/-- The lines of a file's contents, Python-file-iteration style
(newline terminators kept; no empty final line). -/
def linesKeepEnds (s : Str) : List Str :=
  linesKEAux [] s

/-- The part of `s` before its first newline (all of `s` if none):
what `s.split("\n")[0]` yields. -/
def beforeNewline (s : Str) : Str :=
  match findOccFrom ['\n'] s 0 with
  | none => s
  | some k => s.take k

theorem pySplit_nl_headD (s : Str) :
    (pySplit ['\n'] s).headD [] = beforeNewline s := by
  unfold beforeNewline
  cases h : findOccFrom ['\n'] s 0 with
  | none => exact pySplit_headD_none (by simp) h
  | some k => exact pySplit_headD_some (by simp) h

/-- Messages and outputs produced while the scan loop of
`run_llama_builder` (functions/bot.py) runs. -/
inductive ScanEvent where
  | tryAgain : ScanEvent
  | cmdError : ScanEvent
  | answer : Str → ScanEvent
deriving DecidableEq

/-- How a run of the scan loop of `run_llama_builder` ends. -/
inductive ScanOutcome where
  | reachedGate : Str → ScanOutcome
  | printedResult : Str → ScanOutcome
  | gaveUp : ScanOutcome
  | streamEnded : ScanOutcome
deriving DecidableEq

/-- Observable record of one run of the scan loop: how many lines were
read, which messages were printed (in order), how it ended, and whether
`terminate()` was requested on the child process. -/
structure ScanResult where
  consumed : Nat
  events : List ScanEvent
  outcome : ScanOutcome
  terminated : Bool
deriving DecidableEq

/-- Add `n` to the number of consumed lines of a scan record. -/
def bump (n : Nat) (k : ScanResult) : ScanResult :=
  ⟨k.consumed + n, k.events, k.outcome, k.terminated⟩

/-- Record one consumed line plus a printed `cmdError` message in front of
a scan record (the `run_command('')` error path, which also implies that a
`terminate()` had already been requested). -/
def bumpErr (k : ScanResult) : ScanResult :=
  ⟨k.consumed + 1, ScanEvent.cmdError :: k.events, k.outcome, true⟩

/-- Embedding of the `while True` scan loop of `run_llama_builder`
(functions/bot.py).  Arguments: the configured `text_delimiter` and
`text_end`, whether `option == 'C'`, the lines the child process's stdout
would yield, then the loop state `i`, `delimiter_count`, `result`.

Per line: if the delimiter is a substring, bump the occurrence count and
extract (question policy on a second-or-later occurrence with empty
`text_end`; command policy via `find_between` on the first occurrence with
non-empty `text_end`); otherwise, once more than five lines have been
read, print the try-again message, terminate and stop.  Afterwards a
non-`None` result is handed to `run_command` when `option == 'C'` (which
exits for a non-empty command and prints an error and returns for an empty
one) and is printed followed by `break` otherwise. -/
def scanLoop (delim tEnd : Str) (optC : Bool) :
    List Str → Nat → Nat → Option Str → ScanResult
  | [], _, _, res => ⟨0, [], ScanOutcome.streamEnded, res.isSome⟩
  | ln :: rest, i, cnt, res =>
    let i' := i + 1
    let hit := isSubstring delim ln
    if hit = false ∧ 5 < i' then ⟨1, [ScanEvent.tryAgain], ScanOutcome.gaveUp, true⟩
    else
      let cnt' := if hit = true then cnt + 1 else cnt
      let res' :=
        if hit = true then
          if 1 < cnt' ∧ tEnd = [] then some (pyStrip (replaceAll delim ln))
          else if cnt' = 1 ∧ tEnd ≠ [] then some (find_between ln tEnd delim)
          else res
        else res
      match res' with
      | none => bump 1 (scanLoop delim tEnd optC rest i' cnt' none)
      | some r =>
        if optC = true then
          if r = [] then bumpErr (scanLoop delim tEnd optC rest i' cnt' (some r))
          else ⟨1, [], ScanOutcome.reachedGate r, true⟩
        else ⟨1, [ScanEvent.answer r], ScanOutcome.printedResult r, true⟩

/-- A full run of the scan loop, started the way `run_llama_builder`
starts it (`i = 0`, `delimiter_count = 0`, `result = None`). -/
def runScanner (delim tEnd : Str) (optC : Bool) (lines : List Str) : ScanResult :=
  scanLoop delim tEnd optC lines 0 0 none

/-- What a confirmation-gate call does, observably. -/
inductive GateOutcome where
  | executed : Str → GateOutcome
  | declined : GateOutcome
  | errorMsg : GateOutcome
  | silent : GateOutcome
deriving DecidableEq

/-- Embedding of `prompt_user(response)` from functions.py, as a function
of the response and the line the user types.  A falsy response (None or
the empty string) makes the function fall through without printing
anything; otherwise `Y`, `y` and the empty input run the command. -/
def prompt_user (response : Option Str) (input : Str) : GateOutcome :=
  match response with
  | none => GateOutcome.silent
  | some r =>
    if r = [] then GateOutcome.silent
    else if input = ['Y'] ∨ input = ['y'] ∨ input = [] then GateOutcome.executed r
    else GateOutcome.declined

/-- Embedding of `run_command(command)` from functions/bot.py.  A falsy
command prints the red error message and returns; otherwise only `Y` and
`y` run the command and anything else (the empty input included)
declines. -/
def run_command (command : Option Str) (input : Str) : GateOutcome :=
  match command with
  | none => GateOutcome.errorMsg
  | some c =>
    if c = [] then GateOutcome.errorMsg
    else if input = ['Y'] ∨ input = ['y'] then GateOutcome.executed c
    else GateOutcome.declined

/-- Errors the legacy processing functions in functions.py can raise. -/
inductive PyErr where
  | unboundLocal : PyErr
  | indexError : PyErr
deriving DecidableEq

/-- The marker "Assistant:" used by `process_llama_question`. -/
def assistantMarker : Str := ['A', 's', 's', 'i', 's', 't', 'a', 'n', 't', ':']

/-- Embedding of `process_llama_question()` from functions.py, as a
function of the question-output file's contents.  The loop assigns
`response` only on the fourth line, where it takes `split("Assistant:")[1]`
and then `split("\n")[0]`; the `return response` after the loop raises
`UnboundLocalError` when fewer than four lines exist, and `[1]` raises
`IndexError` when the fourth line lacks the marker.  (The timestamped
history append is an I/O side effect with no bearing on the result.) -/
def process_llama_question (content : Str) : Except PyErr Str :=
  match (linesKeepEnds content).get? 3 with
  | none => Except.error PyErr.unboundLocal
  | some line4 =>
    match (pySplit assistantMarker line4).get? 1 with
    | none => Except.error PyErr.indexError
    | some seg => Except.ok ((pySplit ['\n'] seg).headD [])

/-- Recursion over the output file's lines for `process_llama_output()`:
the first line containing `'$'` is processed via `split("`")[1]` and then
`split("`")[-1]`; `[1]` raises `IndexError` when the line has no backtick.
(The timestamped history append is an I/O side effect with no bearing on
the result.) -/
def processOutputLines : List Str → Except PyErr (Option Str)
  | [] => Except.ok none
  | ln :: rest =>
    if ln.any (fun c => c == '$') then
      match (pySplit ['`'] ln).get? 1 with
      | none => Except.error PyErr.indexError
      | some seg => Except.ok (some ((pySplit ['`'] seg).getLastD []))
    else processOutputLines rest

/-- Embedding of `process_llama_output()` from functions.py, as a function
of the command-output file's contents. -/
def process_llama_output (content : Str) : Except PyErr (Option Str) :=
  processOutputLines (linesKeepEnds content)

/-- Modelled from the spec's words (and the source comment "The command is
the text between the first and last backticks"): the text strictly between
the first and the last occurrence of the character `c` in `s`, when two
distinct occurrences exist. -/
def betweenFirstLastMarks (c : Char) (s : Str) : Option Str :=
  match s.findIdx? (fun x => x == c), s.reverse.findIdx? (fun x => x == c) with
  | some i, some rj =>
    let j := s.length - 1 - rj
    if i < j then some ((s.drop (i + 1)).take (j - (i + 1))) else none
  | _, _ => none

/-- Modelled from the claim's words for C9: the portion of a line strictly
after the first occurrence of "Assistant:" and before the next newline. -/
def afterFirstAssistant (ln : Str) : Option Str :=
  (findOccFrom assistantMarker ln 0).map
    (fun i => beforeNewline (ln.drop (i + assistantMarker.length)))

/-- Output written by `print_history()` (functions.py) for a history file
with the given contents: Python's `print(line)` emits each iterated line
followed by an extra newline. -/
def print_history_output (content : Str) : Str :=
  (linesKeepEnds content).foldr (fun l acc => l ++ '\n' :: acc) []

/-- Embedding of `clear_history()` (functions.py) acting on the history
file's state (`none` = absent, `some c` = present with contents `c`):
`open(..., "w")` followed by `write("")` leaves the file present and
empty. -/
def clear_history : Option Str → Option Str :=
  fun _ => some []

/-- Embedding of `str(getenv(key))` as used by `run_llama_builder`
(functions/bot.py) for `_TEXT_DELIMITER` and `_TEXT_END`: a missing
variable yields the literal string "None". -/
def getenvStr (v : Option Str) : Str :=
  match v with
  | none => ['N', 'o', 'n', 'e']
  | some s => s

theorem bump_bump (a b : Nat) (k : ScanResult) :
    bump a (bump b k) = bump (b + a) k := by
  simp [bump, Nat.add_assoc]

theorem scan_step_miss (delim tEnd : Str) (optC : Bool) (ln : Str)
    (rest : List Str) (i cnt : Nat) (res : Option Str)
    (hln : isSubstring delim ln = false) (hi : ¬ 5 < i + 1) :
    scanLoop delim tEnd optC (ln :: rest) i cnt res =
      match res with
      | none => bump 1 (scanLoop delim tEnd optC rest (i + 1) cnt none)
      | some r =>
        if optC = true then
          if r = [] then bumpErr (scanLoop delim tEnd optC rest (i + 1) cnt (some r))
          else ⟨1, [], ScanOutcome.reachedGate r, true⟩
        else ⟨1, [ScanEvent.answer r], ScanOutcome.printedResult r, true⟩ := by
  simp only [scanLoop, hln, eq_self_iff_true, true_and, if_neg hi,
    Bool.false_eq_true, if_false]

theorem scan_skip (delim tEnd : Str) (optC : Bool) :
    ∀ (p rest : List Str) (i cnt : Nat),
      (∀ x ∈ p, isSubstring delim x = false) → i + p.length ≤ 5 →
      scanLoop delim tEnd optC (p ++ rest) i cnt none =
        bump p.length (scanLoop delim tEnd optC rest (i + p.length) cnt none) := by
  intro p
  induction p with
  | nil =>
    intro rest i cnt _ _
    rfl
  | cons ln p' ih =>
    intro rest i cnt hmiss hlen
    have hlen' : i + (p'.length + 1) ≤ 5 := by
      simpa [List.length_cons] using hlen
    have hln : isSubstring delim ln = false := hmiss ln (List.mem_cons_self ln p')
    have hi : ¬ (5 < i + 1) := by omega
    rw [List.cons_append,
      scan_step_miss delim tEnd optC ln (p' ++ rest) i cnt none hln hi]
    have hrec := ih rest (i + 1) cnt
      (fun x hx => hmiss x (List.mem_cons_of_mem ln hx)) (by omega)
    rw [hrec, bump_bump]
    have hidx : i + 1 + p'.length = i + (p'.length + 1) := by omega
    rw [hidx]
    simp [List.length_cons]

theorem scan_gaveup (delim tEnd : Str) (optC : Bool) :
    ∀ (lines : List Str) (i cnt : Nat),
      (∀ x ∈ lines, isSubstring delim x = false) → i ≤ 5 → 6 ≤ i + lines.length →
      scanLoop delim tEnd optC lines i cnt none =
        ⟨6 - i, [ScanEvent.tryAgain], ScanOutcome.gaveUp, true⟩ := by
  intro lines
  induction lines with
  | nil =>
    intro i cnt _ hi hlen
    simp only [List.length_nil] at hlen
    omega
  | cons ln rest ih =>
    intro i cnt hmiss hi hlen
    have hlen' : 6 ≤ i + (rest.length + 1) := by
      simpa [List.length_cons] using hlen
    have hln : isSubstring delim ln = false := hmiss ln (List.mem_cons_self ln rest)
    by_cases h5 : 5 < i + 1
    · have : i = 5 := by omega
      subst this
      simp [scanLoop, hln]
    · rw [scan_step_miss delim tEnd optC ln rest i cnt none hln h5]
      have hrec := ih (i + 1) cnt
        (fun x hx => hmiss x (List.mem_cons_of_mem ln hx)) (by omega) (by omega)
      rw [hrec]
      simp only [bump, ScanResult.mk.injEq]
      exact ⟨by omega, trivial, trivial, trivial⟩

theorem scan_step_hit_cmd_first_gate (delim tEnd : Str) (htEnd : tEnd ≠ [])
    (ln : Str) (rest : List Str) (i : Nat)
    (hln : isSubstring delim ln = true)
    (hres : find_between ln tEnd delim ≠ []) :
    scanLoop delim tEnd true (ln :: rest) i 0 none =
      ⟨1, [], ScanOutcome.reachedGate (find_between ln tEnd delim), true⟩ := by
  simp [scanLoop, hln, htEnd, hres]

theorem scan_step_hit_cmd_first_print (delim tEnd : Str) (htEnd : tEnd ≠ [])
    (ln : Str) (rest : List Str) (i : Nat)
    (hln : isSubstring delim ln = true) :
    scanLoop delim tEnd false (ln :: rest) i 0 none =
      ⟨1, [ScanEvent.answer (find_between ln tEnd delim)],
       ScanOutcome.printedResult (find_between ln tEnd delim), true⟩ := by
  simp [scanLoop, hln, htEnd]

/-- Claim C2, counterexample: with non-empty end-template text, a stream
whose only delimiter-containing line comes after six delimiter-free lines
makes the scanner give up without extracting, so "the first line
containing the stop delimiter triggers extraction" fails for such
streams. -/
theorem c2_counterexample :
    (([['x'], ['x'], ['x'], ['x'], ['x'], ['x'], ['E', 'a', '@']] : List Str).filter
      (fun l => isSubstring ['@'] l)).length = 1 ∧
    (runScanner ['@'] ['E'] true
      [['x'], ['x'], ['x'], ['x'], ['x'], ['x'], ['E', 'a', '@']]).outcome =
      ScanOutcome.gaveUp := by
  decide

/-- Claim C2 as amended: with non-empty end-template text, the first
delimiter-containing line triggers extraction provided at most five
delimiter-free lines precede it; the extracted result is the substring of
that line strictly between the first occurrence of the end-template text
and the first delimiter occurrence after it, and (being non-empty) it is
handed to the command gate. -/
theorem c2_first_occurrence_between (delim tEnd : Str) (htEnd : tEnd ≠ [])
    (p r : List Str) (d : Str)
    (hp : ∀ x ∈ p, isSubstring delim x = false) (hplen : p.length ≤ 5)
    (hd : isSubstring delim d = true) (i j : Nat)
    (hi1 : occursAt tEnd d i) (hi2 : ∀ m, m < i → ¬ occursAt tEnd d m)
    (hj1 : occursAt delim d j) (hj2 : i + tEnd.length ≤ j)
    (hj3 : ∀ m, i + tEnd.length ≤ m → m < j → ¬ occursAt delim d m)
    (hne : (d.drop (i + tEnd.length)).take (j - (i + tEnd.length)) ≠ []) :
    runScanner delim tEnd true (p ++ (d :: r)) =
      ⟨p.length + 1, [],
       ScanOutcome.reachedGate
         ((d.drop (i + tEnd.length)).take (j - (i + tEnd.length))), true⟩ := by
  have hfb : find_between d tEnd delim =
      (d.drop (i + tEnd.length)).take (j - (i + tEnd.length)) :=
    find_between_of_both
      (findOccFrom_eq_some_of (Nat.zero_le i) hi1 (fun m _ hm => hi2 m hm))
      (findOccFrom_eq_some_of hj2 hj1 hj3)
  unfold runScanner
  rw [scan_skip delim tEnd true p _ 0 0 hp (by omega)]
  rw [scan_step_hit_cmd_first_gate delim tEnd htEnd d r (0 + p.length) hd
    (by rw [hfb]; exact hne)]
  rw [hfb]
  simp only [bump, ScanResult.mk.injEq]
  exact ⟨by omega, trivial, trivial, trivial⟩

/-- Witness for C2: the line `"Eab@"` with end text `"E"` and delimiter
`"@"` yields the text `"ab"` strictly between them, handed to the gate. -/
theorem c2_witness :
    runScanner ['@'] ['E'] true [['E', 'a', 'b', '@']] =
      ⟨1, [], ScanOutcome.reachedGate
        (((['E', 'a', 'b', '@'] : Str).drop 1).take 2), true⟩ :=
  c2_first_occurrence_between ['@'] ['E'] (by decide) [] []
    ['E', 'a', 'b', '@'] (by decide) (by decide) (by decide) 0 3
    (by decide) (by decide) (by decide) (by decide) (by decide) (by decide)

/-- Claim C3: for every stream all of whose lines lack the delimiter, once
more than five lines would be read the scanner prints the try-again
message, requests termination, reports no result and reads no further
lines: exactly six lines are consumed however long the stream is. -/
theorem c3_gives_up_after_budget (delim tEnd : Str) (optC : Bool)
    (lines : List Str)
    (hmiss : ∀ x ∈ lines, isSubstring delim x = false)
    (hlen : 6 ≤ lines.length) :
    runScanner delim tEnd optC lines =
      ⟨6, [ScanEvent.tryAgain], ScanOutcome.gaveUp, true⟩ :=
  scan_gaveup delim tEnd optC lines 0 0 hmiss (by omega) (by omega)

/-- Witness for C3: seven delimiter-free lines; the scanner consumes six
and gives up. -/
theorem c3_witness :
    runScanner ['@'] [] false
      [['x'], ['x'], ['x'], ['x'], ['x'], ['x'], ['x']] =
      ⟨6, [ScanEvent.tryAgain], ScanOutcome.gaveUp, true⟩ :=
  c3_gives_up_after_budget ['@'] [] false _ (by decide) (by decide)

/-- Claim C4: `find_between` returns the substring strictly between the
first occurrence of `first` and the first occurrence of `last` after it,
and the empty string (never an error) when either marker is absent;
in particular `find_between("a [b] c", "[", "]") = "b"` and
`find_between("abc", "[", "]") = ""`. -/
theorem c4_find_between_spec :
    find_between "a [b] c".toList "[".toList "]".toList = "b".toList ∧
    find_between "abc".toList "[".toList "]".toList = [] ∧
    (∀ s f l : Str, (∀ n, n ≤ s.length → ¬ occursAt f s n) →
      find_between s f l = []) ∧
    (∀ s f l : Str, ∀ i, occursAt f s i →
      (∀ m, m < i → ¬ occursAt f s m) →
      (∀ n, n ≤ s.length → i + f.length ≤ n → ¬ occursAt l s n) →
      find_between s f l = []) ∧
    (∀ s f l : Str, ∀ i j, occursAt f s i →
      (∀ m, m < i → ¬ occursAt f s m) →
      occursAt l s j → i + f.length ≤ j →
      (∀ m, i + f.length ≤ m → m < j → ¬ occursAt l s m) →
      find_between s f l =
        (s.drop (i + f.length)).take (j - (i + f.length))) := by
  refine ⟨by decide, by decide, ?_, ?_, ?_⟩
  · intro s f l h
    exact find_between_of_first_none
      (findOccFrom_eq_none_of (fun n _ hocc => h n hocc.1 hocc))
  · intro s f l i hi hmin habs
    exact find_between_of_second_none
      (findOccFrom_eq_some_of (Nat.zero_le i) hi (fun m _ hm => hmin m hm))
      (findOccFrom_eq_none_of (fun n hn hocc => habs n hocc.1 hn hocc))
  · intro s f l i j hi hmin hj hij hjmin
    exact find_between_of_both
      (findOccFrom_eq_some_of (Nat.zero_le i) hi (fun m _ hm => hmin m hm))
      (findOccFrom_eq_some_of hij hj hjmin)

/-- Witness for C4: absent first marker, absent second marker after the
first, and both markers present, each at a concrete input. -/
theorem c4_witness :
    find_between "xyz".toList "[".toList "]".toList = [] ∧
    find_between "a[bc".toList "[".toList "]".toList = [] ∧
    find_between "a [b] c".toList "[".toList "]".toList =
      ("a [b] c".toList.drop 3).take 1 := by
  refine ⟨?_, ?_, ?_⟩
  · exact c4_find_between_spec.2.2.1 _ _ _ (by decide)
  · exact c4_find_between_spec.2.2.2.1 _ _ _ 1 (by decide) (by decide)
      (by decide)
  · exact c4_find_between_spec.2.2.2.2 _ _ _ 2 4 (by decide) (by decide)
      (by decide) (by decide) (by decide)

/-- Claim C5: the legacy extraction takes `split("`")[1]` and then
`split("`")[-1]` of the first line containing `'$'`, i.e. the text between
the first and the second backtick, while the source's own comment (and the
spec) say "the text between the first and last backticks": on a line with
four backticks the code returns `"a"` where between-first-and-last is
`` "a` `b" ``. -/
theorem c5_backtick_extraction_bug :
    process_llama_output "$ `a` `b`\n".toList = Except.ok (some "a".toList) ∧
    betweenFirstLastMarks '`' "$ `a` `b`\n".toList = some "a` `b".toList ∧
    ("a".toList : Str) ≠ "a` `b".toList :=
  ⟨rfl, rfl, by decide⟩

/-- Claim C6, counterexample: `run_command` (functions/bot.py) treats the
empty input as a decline ("y/N" default no), so "empty input ... is
treated as acceptance" is false for that gate. -/
theorem c6_counterexample :
    run_command (some ['l', 's']) [] = GateOutcome.declined := by
  decide

/-- Claim C6 as amended: for a non-empty command, the legacy `prompt_user`
gate accepts exactly `Y`, `y` and the empty input, executing the command
verbatim, while `run_command` accepts exactly `Y` and `y` and declines
everything else, the empty input included; a decline never executes. -/
theorem c6_confirmation_gates (cmd : Str) (hcmd : cmd ≠ []) (input : Str) :
    (prompt_user (some cmd) input =
      if input = ['Y'] ∨ input = ['y'] ∨ input = [] then GateOutcome.executed cmd
      else GateOutcome.declined) ∧
    (run_command (some cmd) input =
      if input = ['Y'] ∨ input = ['y'] then GateOutcome.executed cmd
      else GateOutcome.declined) := by
  constructor <;> simp [prompt_user, run_command, hcmd]

/-- Witness for C6: on the empty input the legacy gate runs the command
while the bot gate declines. -/
theorem c6_witness :
    prompt_user (some ['l', 's']) [] = GateOutcome.executed ['l', 's'] ∧
    run_command (some ['l', 's']) [] = GateOutcome.declined := by
  have h := c6_confirmation_gates ['l', 's'] (by decide) []
  exact ⟨by rw [h.1]; decide, by rw [h.2]; decide⟩

/-- Claim C7, counterexample: in the legacy path a missing extraction is
passed to `prompt_user`, which falls through silently: no try-again
message is surfaced, contradicting "the program surfaces a visible
no-result / try-again message". -/
theorem c7_counterexample :
    prompt_user none [] = GateOutcome.silent ∧
    prompt_user (some []) ['y'] = GateOutcome.silent := by
  decide

/-- Claim C7 as amended: an empty or missing extraction is never executed
as a command — `prompt_user` falls through silently (with no message at
all) and `run_command` prints an error message and returns — and the bot
scanner does surface the visible try-again message when its line budget is
exhausted without a delimiter match. -/
theorem c7_no_empty_execution :
    (∀ input : Str, prompt_user none input = GateOutcome.silent ∧
      prompt_user (some []) input = GateOutcome.silent) ∧
    (∀ input : Str, run_command (some []) input = GateOutcome.errorMsg ∧
      run_command none input = GateOutcome.errorMsg) ∧
    (∀ (delim tEnd : Str) (optC : Bool) (lines : List Str),
      (∀ x ∈ lines, isSubstring delim x = false) → 6 ≤ lines.length →
      (runScanner delim tEnd optC lines).events = [ScanEvent.tryAgain] ∧
      (runScanner delim tEnd optC lines).outcome = ScanOutcome.gaveUp) := by
  refine ⟨fun input => ⟨rfl, rfl⟩, fun input => ⟨rfl, rfl⟩, ?_⟩
  intro delim tEnd optC lines hmiss hlen
  have h := scan_gaveup delim tEnd optC lines 0 0 hmiss (by omega) (by omega)
  unfold runScanner
  rw [h]
  exact ⟨rfl, rfl⟩

/-- Witness for C7: the gates at concrete inputs and the scanner on six
delimiter-free lines. -/
theorem c7_witness :
    prompt_user none ['y'] = GateOutcome.silent ∧
    run_command (some []) ['y'] = GateOutcome.errorMsg ∧
    (runScanner ['@'] [] false
      [['x'], ['x'], ['x'], ['x'], ['x'], ['x']]).outcome =
      ScanOutcome.gaveUp :=
  ⟨(c7_no_empty_execution.1 ['y']).1, (c7_no_empty_execution.2.1 ['y']).1,
   (c7_no_empty_execution.2.2 ['@'] [] false _ (by decide) (by decide)).2⟩

/-- Claim C8, counterexample: for the one-line history file `"hi\n"`,
`print_history` emits `"hi\n\n"` — the line followed by the extra newline
`print` appends — not exactly the line unmodified. -/
theorem c8_counterexample :
    print_history_output "hi\n".toList = "hi\n\n".toList ∧
    "hi\n\n".toList ≠ "hi\n".toList :=
  ⟨rfl, by decide⟩

/-- Claim C8 as amended: for every one-line history file, `print_history`
emits that line followed by one extra newline appended by `print`; and
`clear_history` leaves the history file present with empty contents
rather than deleting it. -/
theorem c8_single_line_history (content ln : Str)
    (h : linesKeepEnds content = [ln]) :
    print_history_output content = ln ++ ['\n'] ∧
    ∀ st : Option Str, clear_history st = some [] ∧
      (clear_history st).isSome = true := by
  constructor
  · simp [print_history_output, h]
  · intro st
    exact ⟨rfl, rfl⟩

/-- Witness for C8: the one-line file `"hello\n"`. -/
theorem c8_witness :
    print_history_output "hello\n".toList = "hello\n".toList ++ ['\n'] ∧
    clear_history (some "hello\n".toList) = some [] := by
  have h := c8_single_line_history "hello\n".toList "hello\n".toList (by decide)
  exact ⟨h.1, (h.2 (some "hello\n".toList)).1⟩

/-- Claim C9, counterexample: on a four-line file whose fourth line
contains "Assistant:" twice, `process_llama_question` returns the text
between the first two occurrences of the marker (`"p"`), not the portion
strictly after the first occurrence and before the next newline
(`"pAssistant:q"`). -/
theorem c9_counterexample :
    process_llama_question "a\nb\nc\nxAssistant:pAssistant:q\n".toList =
      Except.ok "p".toList ∧
    afterFirstAssistant "xAssistant:pAssistant:q\n".toList =
      some "pAssistant:q".toList ∧
    ("p".toList : Str) ≠ "pAssistant:q".toList :=
  ⟨rfl, rfl, by decide⟩

/-- Claim C9 as amended: `process_llama_question` fails with an
unbound-variable error when the file has fewer than four lines, fails with
an index error when the fourth line lacks "Assistant:" (never returning a
missing value), and under the precondition returns the portion of the
fourth line strictly after the first "Assistant:" truncated before the
next newline — except that when the marker occurs again, the result stops
at the second occurrence instead. -/
theorem c9_question_processing :
    (∀ content : Str, (linesKeepEnds content).get? 3 = none →
      process_llama_question content = Except.error PyErr.unboundLocal) ∧
    (∀ (content line4 : Str), (linesKeepEnds content).get? 3 = some line4 →
      (∀ n, n ≤ line4.length → ¬ occursAt assistantMarker line4 n) →
      process_llama_question content = Except.error PyErr.indexError) ∧
    (∀ (content line4 : Str) (i : Nat),
      (linesKeepEnds content).get? 3 = some line4 →
      occursAt assistantMarker line4 i →
      (∀ m, m < i → ¬ occursAt assistantMarker line4 m) →
      (∀ n, n ≤ line4.length → i + assistantMarker.length ≤ n →
        ¬ occursAt assistantMarker line4 n) →
      process_llama_question content =
        Except.ok (beforeNewline (line4.drop (i + assistantMarker.length)))) ∧
    (∀ (content line4 : Str) (i j : Nat),
      (linesKeepEnds content).get? 3 = some line4 →
      occursAt assistantMarker line4 i →
      (∀ m, m < i → ¬ occursAt assistantMarker line4 m) →
      occursAt assistantMarker line4 j →
      i + assistantMarker.length ≤ j →
      (∀ m, i + assistantMarker.length ≤ m → m < j →
        ¬ occursAt assistantMarker line4 m) →
      process_llama_question content =
        Except.ok (beforeNewline
          ((line4.drop (i + assistantMarker.length)).take
            (j - (i + assistantMarker.length))))) := by
  have hmark : assistantMarker ≠ [] := by decide
  refine ⟨?_, ?_, ?_, ?_⟩
  · intro content h
    simp only [process_llama_question, h]
  · intro content line4 h4 habs
    have hocc : findOccFrom assistantMarker line4 0 = none :=
      findOccFrom_eq_none_of (fun n _ hocc => habs n hocc.1 hocc)
    have hsplit := pySplit_eq_single hmark hocc
    simp only [process_llama_question, h4, hsplit, List.get?_cons_succ,
      List.get?_nil]
  · intro content line4 i h4 hi hmin habs
    have hfo : findOccFrom assistantMarker line4 0 = some i :=
      findOccFrom_eq_some_of (Nat.zero_le i) hi (fun m _ hm => hmin m hm)
    have hs0 : i + assistantMarker.length ≤ line4.length :=
      (occursAt_pos_length hmark hi).1
    have hinner :
        findOccFrom assistantMarker
          (line4.drop (i + assistantMarker.length)) 0 = none := by
      refine findOccFrom_eq_none_of (fun n _ hocc => ?_)
      have h' := (occursAt_drop_iff hs0).mp hocc
      exact habs (i + assistantMarker.length + n) h'.1 (by omega) h'
    have hsplit := pySplit_eq_cons hmark hfo
    have hsplit2 := pySplit_eq_single hmark hinner
    simp only [process_llama_question, h4, hsplit, hsplit2,
      List.get?_cons_succ, List.get?_cons_zero]
    rw [pySplit_nl_headD]
  · intro content line4 i j h4 hi hmin hj hij hjmin
    have hfo : findOccFrom assistantMarker line4 0 = some i :=
      findOccFrom_eq_some_of (Nat.zero_le i) hi (fun m _ hm => hmin m hm)
    have hs0 : i + assistantMarker.length ≤ line4.length :=
      (occursAt_pos_length hmark hi).1
    have hinner :
        findOccFrom assistantMarker
          (line4.drop (i + assistantMarker.length)) 0 =
          some (j - (i + assistantMarker.length)) := by
      refine findOccFrom_eq_some_of (Nat.zero_le _) ?_ ?_
      · rw [occursAt_drop_iff hs0]
        have heq : i + assistantMarker.length +
            (j - (i + assistantMarker.length)) = j := by omega
        rw [heq]
        exact hj
      · intro m _ hm hocc
        have h' := (occursAt_drop_iff hs0).mp hocc
        exact hjmin (i + assistantMarker.length + m) (by omega) (by omega) h'
    have hsplit := pySplit_eq_cons hmark hfo
    have hsplit2 := pySplit_eq_cons hmark hinner
    simp only [process_llama_question, h4, hsplit, hsplit2,
      List.get?_cons_succ, List.get?_cons_zero]
    rw [pySplit_nl_headD]

/-- Witness for C9: a four-line file whose fourth line contains the marker
exactly once, at index 1. -/
theorem c9_witness :
    process_llama_question "a\nb\nc\nxAssistant:hi\n".toList =
      Except.ok (beforeNewline
        ("xAssistant:hi\n".toList.drop (1 + assistantMarker.length))) :=
  c9_question_processing.2.2.1 "a\nb\nc\nxAssistant:hi\n".toList
    "xAssistant:hi\n".toList 1 (by decide) (by decide) (by decide) (by decide)

/-- Claim C10: a missing `_TEXT_DELIMITER`/`_TEXT_END` option goes through
`str(getenv(...))` and becomes the literal four-character string "None" —
no failure, not the empty string — so with a missing `_TEXT_END` the
scanner applies the non-empty end-text policy (first-occurrence
`find_between` extraction), never the empty-end-text question policy. -/
theorem c10_missing_env_is_none_string (env : Str → Option Str) (key : Str)
    (h : env key = none) :
    getenvStr (env key) = ['N', 'o', 'n', 'e'] ∧
    (getenvStr (env key)).length = 4 ∧
    getenvStr (env key) ≠ [] ∧
    (∀ (delim d1 : Str) (rest : List Str), isSubstring delim d1 = true →
      runScanner delim (getenvStr (env key)) false (d1 :: rest) =
        ⟨1, [ScanEvent.answer (find_between d1 ['N', 'o', 'n', 'e'] delim)],
         ScanOutcome.printedResult
           (find_between d1 ['N', 'o', 'n', 'e'] delim), true⟩) := by
  rw [h]
  refine ⟨rfl, rfl, by decide, ?_⟩
  intro delim d1 rest hd1
  exact scan_step_hit_cmd_first_print delim ['N', 'o', 'n', 'e'] (by decide)
    d1 rest 0 hd1

/-- Witness for C10: an environment with no bindings at all and the line
`"x@"` with delimiter `"@"`. -/
theorem c10_witness :
    getenvStr ((fun _ => none : Str → Option Str) []) = ['N', 'o', 'n', 'e'] ∧
    runScanner ['@'] (getenvStr ((fun _ => none : Str → Option Str) [])) false
      [['x', '@']] =
      ⟨1, [ScanEvent.answer (find_between ['x', '@'] ['N', 'o', 'n', 'e'] ['@'])],
       ScanOutcome.printedResult
         (find_between ['x', '@'] ['N', 'o', 'n', 'e'] ['@']), true⟩ := by
  have h := c10_missing_env_is_none_string (fun _ => none) [] rfl
  exact ⟨h.1, h.2.2.2 ['@'] ['x', '@'] [] (by decide)⟩
